import Mathlib

/-!
Verification of the match planning, result parsing and standings aggregation
logic of the pacman contest scripts (`pacman-ssh-contest.py` and
`ssh_commands_script.py`).  Python strings are modelled as lists of
characters; Python's exception-raising operations (notably `int(...)`)
are modelled in the `Except Unit` monad.
-/

deriving instance DecidableEq for Except

namespace PacmanContest

/-- Python strings modelled as lists of characters. -/
abbrev Str := List Char

/-- Coerce a Lean string literal to the character-list model. -/
def str (s : String) : Str := s.data

/-- `leads needle hay`: `needle` occurs at the very start of `hay`. -/
def leads : Str → Str → Bool
  | [], _ => true
  | _ :: _, [] => false
  | c :: cs, d :: ds => c = d && leads cs ds

/-- `strContains hay needle`: model of Python `hay.find(needle) != -1`. -/
def strContains (hay needle : Str) : Bool :=
  match hay with
  | [] => needle.isEmpty
  | _ :: rest => leads needle hay || strContains rest needle

/-- Fuel-driven worker for `pySplit`; the fuel is always sufficient when
called with `length + 1`, the zero-fuel clause is never reached. -/
def pySplitGo (sep : Str) : Nat → Str → Str → List Str
  | 0, acc, _ => [acc.reverse]
  | _ + 1, acc, [] => [acc.reverse]
  | n + 1, acc, c :: rest =>
    if !sep.isEmpty && leads sep (c :: rest) then
      acc.reverse :: pySplitGo sep n [] ((c :: rest).drop sep.length)
    else
      pySplitGo sep n (c :: acc) rest

/-- Model of Python `s.split(sep)` for a non-empty separator: splits on each
non-overlapping occurrence of `sep`, scanning left to right. -/
def pySplit (s sep : Str) : List Str :=
  pySplitGo sep (s.length + 1) [] s

/-- Worker for `pySplitlines`. -/
def pySplitlinesGo (acc : Str) : Str → List Str
  | [] => if acc.isEmpty then [] else [acc.reverse]
  | '\r' :: '\n' :: rest => acc.reverse :: pySplitlinesGo [] rest
  | '\r' :: rest => acc.reverse :: pySplitlinesGo [] rest
  | '\n' :: rest => acc.reverse :: pySplitlinesGo [] rest
  | c :: rest => pySplitlinesGo (c :: acc) rest

/-- Model of Python `s.splitlines()`. -/
def pySplitlines (s : Str) : List Str := pySplitlinesGo [] s

/-- Whitespace characters stripped by Python `int(...)`. -/
def isPySpace (c : Char) : Bool :=
  c = ' ' || c = '\t' || c = '\n' || c = '\r' || c = '\x0b' || c = '\x0c'

/-- Strip leading and trailing whitespace. -/
def stripSpaces (s : Str) : Str :=
  ((s.dropWhile isPySpace).reverse.dropWhile isPySpace).reverse

/-- Value of a non-empty all-digit string, `none` otherwise. -/
def digitsVal (s : Str) : Option Nat :=
  if s.isEmpty then none
  else if s.all (fun c => c.isDigit) then
    some (s.foldl (fun a c => a * 10 + (c.toNat - 48)) 0)
  else none

/-- Model of Python 2 `int(s)` on a string: optional sign and a non-empty
digit string, surrounded by optional whitespace; `none` models the
`ValueError` raised on any other input. -/
def pyInt (s : Str) : Option Int :=
  match stripSpaces s with
  | '+' :: ds => (digitsVal ds).map Int.ofNat
  | '-' :: ds => (digitsVal ds).map (fun n => -(n : Int))
  | ds => (digitsVal ds).map Int.ofNat

/-! ### The text markers scanned by `_parse_result` -/

def winsByMark : Str := str "wins by"
def pointsMark : Str := str "points"
def redTok : Str := str "Red"
def blueTok : Str := str "Blue"
def blueRetMark : Str := str "The Blue team has returned at least "
def redRetMark : Str := str "The Red team has returned at least "
def tieMark : Str := str "Tie Game"
def crashMark : Str := str "agent crashed"
def redCrashMark : Str := str "Red agent crashed"
def blueCrashMark : Str := str "Blue agent crashed"
def spaceMark : Str := str " "

/-! ### Parser state

`_parse_result` scans the output line by line, updating local variables
`score`, `winner`, `loser`, `bug`; it also increments the shared
`self.errors[...]` dictionary when it attributes a crash to a team.  The
increments are modelled as an append-only log of attributed crashes
(`crashLog`): `self.errors[t]` equals the count of `t` in the log (all
counters start at 0, `self.errors = {n: 0 for n, _ in self.teams}`). -/

structure PState (τ : Type) where
  score : Nat
  winner : Option τ
  loser : Option τ
  bug : Bool
  crashLog : List τ
deriving DecidableEq, Repr

/-- The state at entry of `_parse_result`, with the ambient crash log. -/
def initP (log : List τ) : PState τ :=
  { score := 0, winner := none, loser := none, bug := false, crashLog := log }

/-- The segment `line.split('wins by')[1].split('points')[0]`. -/
def winsBySeg (line : Str) : Str :=
  (pySplit ((pySplit line winsByMark).getD 1 []) pointsMark).getD 0 []

/-- The segment `line.split(<mark>)[1].split(' ')[0]` used by the
"has returned at least" rules. -/
def retSeg (mark line : Str) : Str :=
  (pySplit ((pySplit line mark).getD 1 []) spaceMark).getD 0 []

/-- The `if line.find("wins by") != -1` block of `_parse_result` (identical
in both scripts).  `Except.error ()` models the `ValueError` raised by
`int(...)` on a malformed segment. -/
def parseWinsBy [DecidableEq τ] (red blue : τ) (st : PState τ) (line : Str) :
    Except Unit (PState τ) :=
  if strContains line winsByMark then
    match pyInt (winsBySeg line) with
    | none => .error ()
    | some n =>
      let st := { st with score := n.natAbs }
      if strContains line redTok then
        .ok { st with winner := some red, loser := some blue }
      else if strContains line blueTok then
        .ok { st with winner := some blue, loser := some red }
      else .ok st
  else .ok st

/-- The `if`/`elif` chain of `_parse_result` in `pacman-ssh-contest.py`
(lines 377-399): "has returned at least" rules, "Tie Game", and the crash
rule, which there also assigns winner/loser and forces the score to 1. -/
def parseChain [DecidableEq τ] (red blue : τ) (st : PState τ) (line : Str) :
    Except Unit (PState τ) :=
  if strContains line blueRetMark then
    match pyInt (retSeg blueRetMark line) with
    | none => .error ()
    | some n => .ok { st with score := n.natAbs, winner := some blue, loser := some red }
  else if strContains line redRetMark then
    match pyInt (retSeg redRetMark line) with
    | none => .error ()
    | some n => .ok { st with score := n.natAbs, winner := some red, loser := some blue }
  else if strContains line tieMark then
    .ok { st with winner := none, loser := none }
  else if strContains line crashMark then
    let st := { st with bug := true }
    let st :=
      if strContains line redCrashMark then
        { st with crashLog := st.crashLog ++ [red],
                  winner := some blue, loser := some red, score := 1 }
      else st
    let st :=
      if strContains line blueCrashMark then
        { st with crashLog := st.crashLog ++ [blue],
                  winner := some red, loser := some blue, score := 1 }
      else st
    .ok st
  else .ok st

/-- One iteration of the line loop of `_parse_result` (`pacman-ssh-contest.py`). -/
def parseLine [DecidableEq τ] (red blue : τ) (st : PState τ) (line : Str) :
    Except Unit (PState τ) :=
  (parseWinsBy red blue st line).bind (fun st1 => parseChain red blue st1 line)

/-- The full line loop of `_parse_result` (`pacman-ssh-contest.py`). -/
def parseLines [DecidableEq τ] (red blue : τ) :
    PState τ → List Str → Except Unit (PState τ)
  | st, [] => .ok st
  | st, l :: ls => (parseLine red blue st l).bind (fun st1 => parseLines red blue st1 ls)

/-- `_parse_result(output, red, blue)` of `pacman-ssh-contest.py`, threading
the ambient crash log. -/
def parse_result [DecidableEq τ] (red blue : τ) (log : List τ) (output : Str) :
    Except Unit (PState τ) :=
  parseLines red blue (initP log) (pySplitlines output)

/-- The `if`/`elif` chain of `_parse_result` in `ssh_commands_script.py`
(lines 282-298): identical except that the crash rule only sets the bug
flag and increments the crash counters, leaving winner/loser/score alone. -/
def parseChainSsh [DecidableEq τ] (red blue : τ) (st : PState τ) (line : Str) :
    Except Unit (PState τ) :=
  if strContains line blueRetMark then
    match pyInt (retSeg blueRetMark line) with
    | none => .error ()
    | some n => .ok { st with score := n.natAbs, winner := some blue, loser := some red }
  else if strContains line redRetMark then
    match pyInt (retSeg redRetMark line) with
    | none => .error ()
    | some n => .ok { st with score := n.natAbs, winner := some red, loser := some blue }
  else if strContains line tieMark then
    .ok { st with winner := none, loser := none }
  else if strContains line crashMark then
    let st := { st with bug := true }
    let st :=
      if strContains line redCrashMark then
        { st with crashLog := st.crashLog ++ [red] }
      else st
    let st :=
      if strContains line blueCrashMark then
        { st with crashLog := st.crashLog ++ [blue] }
      else st
    .ok st
  else .ok st

/-- One iteration of the line loop of `_parse_result` (`ssh_commands_script.py`). -/
def parseLineSsh [DecidableEq τ] (red blue : τ) (st : PState τ) (line : Str) :
    Except Unit (PState τ) :=
  (parseWinsBy red blue st line).bind (fun st1 => parseChainSsh red blue st1 line)

/-! ### Ladder aggregation

`_analyse_output` (`pacman-ssh-contest.py`, lines 566-586) parses a
match output, appends the signed score to the two ladders, and appends a
per-game record, with the sentinel 9999 in place of the score when the
bug flag was set.  The per-team ladders `self.ladder` are modelled as a
total function from teams to score lists (each registered team starts at
`[]`).  `ladder[None]` would be a Python `KeyError`; it is modelled as
`Except.error ()`. -/

/-- `self.ladder[t].append(v)`. -/
def appendL [DecidableEq τ] (lad : τ → List Int) (t : τ) (v : Int) : τ → List Int :=
  fun x => if x = t then lad x ++ [v] else lad x

/-- The ladder-update block of `_analyse_output` (`pacman-ssh-contest.py`,
lines 568-573): if there is no winner both teams get `score`, otherwise
the winner gets `score` and the loser `-score`. -/
def foldOutcome [DecidableEq τ] (red blue : τ) (score : Nat)
    (winner loser : Option τ) (lad : τ → List Int) : Except Unit (τ → List Int) :=
  match winner with
  | none => .ok (appendL (appendL lad red score) blue score)
  | some w =>
    match loser with
    | some l => .ok (appendL (appendL lad w score) l (-(score : Int)))
    | none => .error ()

/-- The ladder-update block of `_run_match` (`ssh_commands_script.py`,
lines 406-412): identical, except that it is guarded by `if not bug:` —
crashed matches contribute nothing to the ladders. -/
def foldOutcomeSsh [DecidableEq τ] (red blue : τ) (score : Nat)
    (winner loser : Option τ) (bug : Bool) (lad : τ → List Int) :
    Except Unit (τ → List Int) :=
  if bug then .ok lad else foldOutcome red blue score winner loser lad

/-- The tournament state mutated by `_analyse_output`: the per-team
ladders, the per-game report records, and the crash log (`self.errors`). -/
structure Tourn (τ Λ : Type) where
  ladder : τ → List Int
  games : List (τ × τ × Λ × Nat × Option τ)
  crashLog : List τ

/-- `_analyse_output(red, blue, layout, exit_code, output)` of
`pacman-ssh-contest.py` (minus file IO): parse the output, fold the
outcome into the ladders, and append the game record, substituting the
sentinel 9999 for the score when the bug flag is set. -/
def analyse_output [DecidableEq τ] (red blue : τ) (layout : Λ) (output : Str)
    (s : Tourn τ Λ) : Except Unit (Tourn τ Λ) :=
  (parse_result red blue s.crashLog output).bind fun pst =>
    (foldOutcome red blue pst.score pst.winner pst.loser s.ladder).map fun lad =>
      { ladder := lad,
        games := s.games ++
          [(red, blue, layout, (if pst.bug then 9999 else pst.score), pst.winner)],
        crashLog := pst.crashLog }

/-- One returned record of the distributed batch: `((red_team, blue_team,
layout), exit_code, output, error)`; the text fed to the parser is
`output + error`, here pre-combined into one field. -/
structure RRes (τ Λ : Type) where
  red : τ
  blue : τ
  layout : Λ
  exitCode : Int
  text : Str
deriving DecidableEq

/-- `_analyse_all_outputs(results)` of `pacman-ssh-contest.py` (lines
621-623): fold every returned record through `_analyse_output`, in the
arrival order of the list. -/
def analyse_all_outputs [DecidableEq τ] : List (RRes τ Λ) → Tourn τ Λ →
    Except Unit (Tourn τ Λ)
  | [], s => .ok s
  | r :: rs, s =>
    (analyse_output r.red r.blue r.layout r.text s).bind
      (fun s1 => analyse_all_outputs rs s1)

/-- `_calculate_team_stats` of `pacman-ssh-contest.py` (lines 642-661),
for one team: `[points, wins, draws, loses, errors, sum_score]` derived
from that team's ladder and crash counter. -/
def calculate_team_stats [DecidableEq τ] (s : Tourn τ Λ) (t : τ) :
    Nat × Nat × Nat × Nat × Nat × Int :=
  (((s.ladder t).countP (fun x => decide (0 < x)) * 3) +
      (s.ladder t).countP (fun x => decide (x = 0)),
   (s.ladder t).countP (fun x => decide (0 < x)),
   (s.ladder t).countP (fun x => decide (x = 0)),
   (s.ladder t).countP (fun x => decide (x < 0)),
   s.crashLog.count t,
   (s.ladder t).sum)

/-! ### Match planning

`run_contest` / `run_contest_remotely` enumerate
`for red_team, blue_team in combinations(self.teams, r=2): for layout in
self.layouts: ...`. -/

/-- Python `itertools.combinations(l, 2)`: index pairs `i < j` in
lexicographic order. -/
def pairsPy : List α → List (α × α)
  | [] => []
  | x :: xs => xs.map (fun y => (x, y)) ++ pairsPy xs

/-- The planned match list: one `(red, blue, layout)` per team pair and
layout, in the nested-loop order used by both `run_contest` and
`run_contest_remotely`. -/
def planMatches (teams : List α) (layouts : List β) : List (α × α × β) :=
  (pairsPy teams).flatMap (fun p => layouts.map (fun lay => (p.1, p.2, lay)))

/-! ### Derived predicates used by the verification -/

/-- The unordered-pair predicate on planned matches. -/
def pairPred [DecidableEq α] (a b : α) (q : α × α) : Bool :=
  (decide (q.1 = a) && decide (q.2 = b)) || (decide (q.1 = b) && decide (q.2 = a))

/-- The unordered-pair predicate on planned matches (ignoring the layout). -/
def matchPred [DecidableEq α] (a b : α) (m : α × α × β) : Bool :=
  (decide (m.1 = a) && decide (m.2.1 = b)) || (decide (m.1 = b) && decide (m.2.1 = a))

/-- The crash attributions appended by one line of `_parse_result`. -/
def lineDelta [DecidableEq τ] (red blue : τ) (line : Str) : List τ :=
  if strContains line blueRetMark then []
  else if strContains line redRetMark then []
  else if strContains line tieMark then []
  else if strContains line crashMark then
    (if strContains line redCrashMark then [red] else []) ++
    (if strContains line blueCrashMark then [blue] else [])
  else []

/-- A line whose scanned integer segments are well formed: whenever a
rule that calls `int(...)` fires on the line, the segment it extracts is
a well-formed integer.  (The rule-2 red check only fires when the blue
marker is absent, mirroring the `elif`.) -/
def wellFormedLine (line : Str) : Bool :=
  (!(strContains line winsByMark) || (pyInt (winsBySeg line)).isSome) &&
  (!(strContains line blueRetMark) || (pyInt (retSeg blueRetMark line)).isSome) &&
  (!(strContains line redRetMark && !(strContains line blueRetMark)) ||
    (pyInt (retSeg redRetMark line)).isSome)

/-- Whether one returned record processes without an exception: its text
parses and the parsed outcome is foldable (no winner without a loser). -/
def resOK [DecidableEq τ] (r : RRes τ Λ) : Bool :=
  match parse_result r.red r.blue [] r.text with
  | .error _ => false
  | .ok p => !(p.winner.isSome && p.loser.isNone)

/-- The ladder entries one returned record appends to team `t`'s ladder. -/
def ladDelta [DecidableEq τ] (t : τ) (r : RRes τ Λ) : List Int :=
  match parse_result r.red r.blue [] r.text with
  | .error _ => []
  | .ok p =>
    match p.winner, p.loser with
    | none, _ =>
      (if t = r.red then [(p.score : Int)] else []) ++
      (if t = r.blue then [(p.score : Int)] else [])
    | some w, some l =>
      (if t = w then [(p.score : Int)] else []) ++
      (if t = l then [-(p.score : Int)] else [])
    | some _, none => []

/-- The crash attributions one returned record appends to the log. -/
def logDelta [DecidableEq τ] (r : RRes τ Λ) : List τ :=
  match parse_result r.red r.blue [] r.text with
  | .error _ => []
  | .ok p => p.crashLog

/-- The ladder entries `_analyse_output` appends to team `t`'s ladder for
one parsed outcome: `+score` to the winner and `-score` to the loser,
the raw score to both participants when there is no winner, nothing to
anyone else. -/
def outcomeEntries [DecidableEq τ] (red blue : τ) (pst : PState τ) (t : τ) :
    List Int :=
  match pst.winner with
  | none =>
    (if t = red then [(pst.score : Int)] else []) ++
    (if t = blue then [(pst.score : Int)] else [])
  | some w =>
    match pst.loser with
    | some l =>
      (if t = w then [(pst.score : Int)] else []) ++
      (if t = l then [-(pst.score : Int)] else [])
    | none => []

/-! ### Sanity evaluations of the embedding on concrete inputs -/

example : pySplitlines (str "a\nb\n") = [str "a", str "b"] := by decide
example : pySplit (str "X wins by 3 points") (str "wins by") =
    [str "X ", str " 3 points"] := by decide
example : pyInt (str " 3 ") = some 3 := by decide
example : pyInt (str " many ") = none := by decide
example : strContains (str "Blue agent crashed") (str "agent crashed") = true := by decide

example :
    parse_result 0 1 [] (str "Red wins by 7 points") =
      .ok { score := 7, winner := some 0, loser := some 1, bug := false, crashLog := [] } := by
  decide

example :
    parse_result 0 1 [] (str "Blue agent crashed") =
      .ok { score := 1, winner := some 0, loser := some 1, bug := true, crashLog := [1] } := by
  decide

example :
    parse_result 0 1 [] (str "Tie Game Blue agent crashed") =
      .ok { score := 0, winner := none, loser := none, bug := false, crashLog := [] } := by
  decide

example :
    parse_result 0 1 [] (str "A wins by many points") = .error () := by
  decide

example :
    parseLineSsh 0 1 (initP []) (str "Blue agent crashed") =
      .ok { score := 0, winner := none, loser := none, bug := true, crashLog := [1] } := by
  decide

example : planMatches [0, 1, 2] [10, 11] =
    [(0, 1, 10), (0, 1, 11), (0, 2, 10), (0, 2, 11), (1, 2, 10), (1, 2, 11)] := by
  decide

/-! ### C1: exhaustive, duplicate-free pairing -/

lemma pairsPy_length (l : List α) : (pairsPy l).length = l.length.choose 2 := by
  induction l with
  | nil => simp [pairsPy]
  | cons x xs ih =>
    simp only [pairsPy, List.length_append, List.length_map, ih, List.length_cons]
    rw [Nat.choose_succ_succ xs.length 1, Nat.choose_one_right]

lemma mem_pairsPy {l : List α} {u v : α} (h : (u, v) ∈ pairsPy l) :
    u ∈ l ∧ v ∈ l := by
  induction l with
  | nil => simp [pairsPy] at h
  | cons x xs ih =>
    simp only [pairsPy, List.mem_append, List.mem_map, Prod.mk.injEq] at h
    rcases h with ⟨y, hy, rfl, rfl⟩ | h
    · exact ⟨List.mem_cons_self x xs, List.mem_cons_of_mem x hy⟩
    · obtain ⟨hu, hv⟩ := ih h
      exact ⟨List.mem_cons_of_mem x hu, List.mem_cons_of_mem x hv⟩

lemma mem_pairsPy_ne {l : List α} (hnd : l.Nodup) {u v : α}
    (h : (u, v) ∈ pairsPy l) : u ≠ v := by
  induction l with
  | nil => simp [pairsPy] at h
  | cons x xs ih =>
    obtain ⟨hx, hxs⟩ := List.nodup_cons.mp hnd
    simp only [pairsPy, List.mem_append, List.mem_map, Prod.mk.injEq] at h
    rcases h with ⟨y, hy, rfl, rfl⟩ | h
    · intro he
      exact hx (he ▸ hy)
    · exact ih hxs h

lemma countP_pairsPy [DecidableEq α] {l : List α} (hnd : l.Nodup) {a b : α}
    (ha : a ∈ l) (hb : b ∈ l) (hab : a ≠ b) :
    (pairsPy l).countP (pairPred a b) = 1 := by
  induction l with
  | nil => simp at ha
  | cons x xs ih =>
    obtain ⟨hx, hxs⟩ := List.nodup_cons.mp hnd
    simp only [pairsPy, List.countP_append, List.countP_map]
    by_cases hax : a = x
    · have hbxs : b ∈ xs := by
        rcases List.mem_cons.mp hb with h | h
        · exact absurd (hax ▸ h) (Ne.symm hab)
        · exact h
      have h1 : xs.countP ((pairPred a b) ∘ fun y => (x, y)) = 1 := by
        have he : ((pairPred a b) ∘ fun y => (x, y)) = fun y => decide (y = b) := by
          funext y
          simp only [pairPred, Function.comp, ← hax]
          by_cases hyb : y = b <;> simp [hyb, hab, Ne.symm hab]
        rw [he]
        have := List.count_eq_one_of_mem hxs hbxs
        simpa [List.count_eq_countP] using this
      have h2 : (pairsPy xs).countP (pairPred a b) = 0 := by
        rw [List.countP_eq_zero]
        rintro ⟨u, v⟩ hm
        obtain ⟨hu, hv⟩ := mem_pairsPy hm
        have hua : u ≠ a := fun h => hx (hax ▸ h ▸ hu)
        have hva : v ≠ a := fun h => hx (hax ▸ h ▸ hv)
        simp [pairPred, hua, hva]
      omega
    · by_cases hbx : b = x
      · have haxs : a ∈ xs := by
          rcases List.mem_cons.mp ha with h | h
          · exact absurd h hax
          · exact h
        have h1 : xs.countP ((pairPred a b) ∘ fun y => (x, y)) = 1 := by
          have he : ((pairPred a b) ∘ fun y => (x, y)) = fun y => decide (y = a) := by
            funext y
            simp only [pairPred, Function.comp, ← hbx]
            by_cases hya : y = a <;> simp [hya, hab, Ne.symm hab]
          rw [he]
          have := List.count_eq_one_of_mem hxs haxs
          simpa [List.count_eq_countP] using this
        have h2 : (pairsPy xs).countP (pairPred a b) = 0 := by
          rw [List.countP_eq_zero]
          rintro ⟨u, v⟩ hm
          obtain ⟨hu, hv⟩ := mem_pairsPy hm
          have hub : u ≠ b := fun h => hx (hbx ▸ h ▸ hu)
          have hvb : v ≠ b := fun h => hx (hbx ▸ h ▸ hv)
          simp [pairPred, hub, hvb]
        omega
      · have haxs : a ∈ xs := by
          rcases List.mem_cons.mp ha with h | h
          · exact absurd h hax
          · exact h
        have hbxs : b ∈ xs := by
          rcases List.mem_cons.mp hb with h | h
          · exact absurd h hbx
          · exact h
        have h1 : xs.countP ((pairPred a b) ∘ fun y => (x, y)) = 0 := by
          rw [List.countP_eq_zero]
          intro y _
          have hxa : x ≠ a := fun h => hax h.symm
          have hxb : x ≠ b := fun h => hbx h.symm
          simp [pairPred, hxa, hxb]
        rw [h1, ih hxs haxs hbxs]

lemma countP_flatMap' (l : List α) (f : α → List β) (p : β → Bool) :
    (l.flatMap f).countP p = (l.map (fun a => (f a).countP p)).sum := by
  induction l with
  | nil => simp
  | cons x xs ih => simp [List.flatMap_cons, List.countP_append, ih]

lemma sum_map_ite_countP [DecidableEq α] (q : α × α → Bool) (l : List (α × α)) (L : Nat) :
    (l.map (fun p => if q p then L else 0)).sum = l.countP q * L := by
  induction l with
  | nil => simp
  | cons x xs ih =>
    by_cases hx : q x <;> simp [hx, ih, List.countP_cons, Nat.add_mul, Nat.add_comm]

lemma countP_planMatches [DecidableEq α] (teams : List α) (layouts : List β)
    {a b : α} (hnd : teams.Nodup) (ha : a ∈ teams) (hb : b ∈ teams) (hab : a ≠ b) :
    (planMatches teams layouts).countP (matchPred a b) = layouts.length := by
  rw [planMatches, countP_flatMap']
  have : ∀ p : α × α,
      (layouts.map (fun lay => (p.1, p.2, lay))).countP (matchPred a b) =
        if pairPred a b p then layouts.length else 0 := by
    intro p
    rw [List.countP_map]
    by_cases hq : pairPred a b p
    · have : (matchPred a b (β := β)) ∘ (fun lay => (p.1, p.2, lay)) = fun _ => true := by
        funext lay
        simpa [matchPred, Function.comp, pairPred] using hq
      simp [this, hq]
    · have : (matchPred a b (β := β)) ∘ (fun lay => (p.1, p.2, lay)) = fun _ => false := by
        funext lay
        simp only [matchPred, Function.comp, pairPred] at hq ⊢
        simpa using hq
      simp [this, hq]
  simp only [this]
  rw [sum_map_ite_countP, countP_pairsPy hnd ha hb hab, Nat.one_mul]

/-- C1: the planned match list has exactly `N*(N-1)/2*L` entries, every
unordered pair of distinct teams appears exactly `L` times, and no team
is ever paired with itself.  This is the nested loop
`for red_team, blue_team in combinations(self.teams, r=2): for layout in
self.layouts:` shared by `run_contest` and `run_contest_remotely`. -/
theorem match_planner_correct [DecidableEq α] (teams : List α) (layouts : List β)
    (hnd : teams.Nodup) (hN : 2 ≤ teams.length) (hL : 1 ≤ layouts.length) :
    (planMatches teams layouts).length =
        teams.length * (teams.length - 1) / 2 * layouts.length
    ∧ (∀ a b : α, a ∈ teams → b ∈ teams → a ≠ b →
        (planMatches teams layouts).countP (matchPred a b) = layouts.length)
    ∧ (∀ (a : α) (lay : β), (a, a, lay) ∉ planMatches teams layouts) := by
  refine ⟨?_, ?_, ?_⟩
  · rw [planMatches]
    have hlen : ((pairsPy teams).flatMap
        (fun p => layouts.map (fun lay => (p.1, p.2, lay)))).length =
        (pairsPy teams).length * layouts.length := by
      rw [List.length_flatMap]
      have : ((pairsPy teams).map
          (fun p => (layouts.map (fun lay => (p.1, p.2, lay))).length)) =
          (pairsPy teams).map (fun _ => layouts.length) := by
        simp
      induction pairsPy teams with
      | nil => simp
      | cons q qs ih =>
        simp_all [Nat.succ_mul, Nat.add_comm]
    rw [hlen, pairsPy_length, Nat.choose_two_right]
  · intro a b ha hb hab
    exact countP_planMatches teams layouts hnd ha hb hab
  · intro a lay hmem
    rw [planMatches, List.mem_flatMap] at hmem
    obtain ⟨p, hp, hm⟩ := hmem
    rw [List.mem_map] at hm
    obtain ⟨l2, _, he⟩ := hm
    have hpe : p = (a, a) := by
      cases p
      simp only [Prod.mk.injEq] at he
      simp [he.1, he.2.1]
    exact mem_pairsPy_ne hnd (hpe ▸ hp) rfl

/-- Witness for C1 at a concrete input: 3 distinct teams, 2 layouts. -/
theorem match_planner_correct_witness :
    (planMatches [0, 1, 2] [10, 11]).length = 3 * (3 - 1) / 2 * 2
    ∧ (planMatches [0, 1, 2] [10, 11]).countP (matchPred 1 2) = 2
    ∧ ((2 : Nat), (2 : Nat), (10 : Nat)) ∉ planMatches [0, 1, 2] [10, 11] := by
  obtain ⟨h1, h2, h3⟩ :=
    match_planner_correct [0, 1, 2] [10, 11] (by decide) (by decide) (by decide)
  exact ⟨h1, h2 1 2 (by decide) (by decide) (by decide), h3 2 10⟩

/-! ### Substring containment facts -/

lemma leads_iff : ∀ (n h : Str), leads n h = true ↔ ∃ t, h = n ++ t
  | [], h => by simp [leads]
  | _ :: _, [] => by simp [leads]
  | c :: cs, d :: ds => by
    simp only [leads, Bool.and_eq_true, decide_eq_true_eq, List.cons_append,
      List.cons.injEq]
    constructor
    · rintro ⟨rfl, h⟩
      obtain ⟨t, rfl⟩ := (leads_iff cs ds).mp h
      exact ⟨t, rfl, rfl⟩
    · rintro ⟨t, rfl, rfl⟩
      exact ⟨rfl, (leads_iff cs _).mpr ⟨t, rfl⟩⟩

lemma strContains_iff : ∀ (h n : Str), strContains h n = true ↔ ∃ s t, h = s ++ n ++ t
  | [], n => by
    simp only [strContains, List.isEmpty_iff]
    constructor
    · rintro rfl
      exact ⟨[], [], rfl⟩
    · rintro ⟨s, t, he⟩
      rcases List.append_eq_nil.mp he.symm with ⟨h1, h2⟩
      exact (List.append_eq_nil.mp h1).2
  | x :: rest, n => by
    simp only [strContains, Bool.or_eq_true]
    constructor
    · rintro (hl | hc)
      · obtain ⟨t, he⟩ := (leads_iff n (x :: rest)).mp hl
        exact ⟨[], t, by simpa using he⟩
      · obtain ⟨s, t, rfl⟩ := (strContains_iff rest n).mp hc
        exact ⟨x :: s, t, rfl⟩
    · rintro ⟨s, t, he⟩
      cases s with
      | nil =>
        left
        exact (leads_iff n (x :: rest)).mpr ⟨t, by simpa using he⟩
      | cons y s2 =>
        right
        simp only [List.cons_append] at he
        injection he with h1 h2
        exact (strContains_iff rest n).mpr ⟨s2, t, h2⟩

lemma strContains_trans {h b a : Str} (h1 : strContains h b = true)
    (h2 : strContains b a = true) : strContains h a = true := by
  obtain ⟨s, t, rfl⟩ := (strContains_iff h b).mp h1
  obtain ⟨s2, t2, rfl⟩ := (strContains_iff b a).mp h2
  exact (strContains_iff _ a).mpr ⟨s ++ s2, t2 ++ t, by simp [List.append_assoc]⟩

/-- If `a` occurs inside `b` and a line avoids `a`, the line avoids `b`. -/
lemma not_contains_mono {l b a : Str} (hsub : strContains b a = true)
    (h : strContains l a = false) : strContains l b = false := by
  cases hlb : strContains l b with
  | false => rfl
  | true => rw [strContains_trans hlb hsub] at h; cases h

/-! ### C9: text matching no grammar rule parses as a tie -/

/-- A line with none of the four rule markers leaves the scan state alone. -/
lemma parseLine_id [DecidableEq τ] (red blue : τ) (st : PState τ) (line : Str)
    (hw : strContains line winsByMark = false)
    (hret : strContains line (str "has returned at least") = false)
    (ht : strContains line tieMark = false)
    (hc : strContains line crashMark = false) :
    parseLine red blue st line = .ok st := by
  have hbr : strContains line blueRetMark = false :=
    not_contains_mono (by decide) hret
  have hrr : strContains line redRetMark = false :=
    not_contains_mono (by decide) hret
  simp [parseLine, parseWinsBy, parseChain, Except.bind, hw, hbr, hrr, ht, hc]

/-- C9: on text in which no line contains any of the grammar markers
"wins by", "has returned at least", "Tie Game", "agent crashed",
`_parse_result` returns score 0, no winner, no loser, bug flag false,
and leaves the crash counters untouched — the match parses as a tie. -/
theorem unmatched_text_parses_as_tie [DecidableEq τ] (red blue : τ) (log : List τ)
    (output : Str)
    (h : ∀ line ∈ pySplitlines output,
      strContains line winsByMark = false ∧
      strContains line (str "has returned at least") = false ∧
      strContains line tieMark = false ∧
      strContains line crashMark = false) :
    parse_result red blue log output =
      .ok { score := 0, winner := none, loser := none, bug := false, crashLog := log } := by
  rw [parse_result]
  have : ∀ (ls : List Str) (st : PState τ),
      (∀ line ∈ ls,
        strContains line winsByMark = false ∧
        strContains line (str "has returned at least") = false ∧
        strContains line tieMark = false ∧
        strContains line crashMark = false) →
      parseLines red blue st ls = .ok st := by
    intro ls
    induction ls with
    | nil => intro st _; rfl
    | cons l ls ih =>
      intro st hall
      obtain ⟨h1, h2, h3, h4⟩ := hall l (List.mem_cons_self l ls)
      rw [parseLines, parseLine_id red blue st l h1 h2 h3 h4]
      exact ih st (fun line hm => hall line (List.mem_cons_of_mem l hm))
  exact this _ _ h

/-- Witness for C9 on a concrete unparseable output. -/
theorem unmatched_text_parses_as_tie_witness :
    parse_result 0 1 [] (str "Traceback (most recent call)\ngame over\n") =
      .ok { score := 0, winner := none, loser := none, bug := false, crashLog := [] } :=
  unmatched_text_parses_as_tie 0 1 [] _ (by decide)

/-! ### C8: effect of a "Tie Game" line -/

/-- C8 (amended): processing a line that contains "Tie Game" and none of
"wins by", "The Blue team has returned at least ", "The Red team has
returned at least " clears winner and loser and leaves everything else —
in particular the accumulated score — unchanged.  (The extra exclusions
are forced: the `elif` chain gives those rules precedence on the same
line, and the independent "wins by" block still updates the score.) -/
theorem tie_game_clears_winner [DecidableEq τ] (red blue : τ) (st : PState τ)
    (line : Str)
    (ht : strContains line tieMark = true)
    (hw : strContains line winsByMark = false)
    (hbr : strContains line blueRetMark = false)
    (hrr : strContains line redRetMark = false) :
    parseLine red blue st line = .ok { st with winner := none, loser := none } := by
  simp [parseLine, parseWinsBy, parseChain, Except.bind, hw, hbr, hrr, ht]

/-- Witness for C8 at a concrete state and line. -/
theorem tie_game_clears_winner_witness :
    parseLine 0 1 { score := 5, winner := some 0, loser := some 1, bug := false,
                    crashLog := [] } (str "Tie Game") =
      .ok { score := 5, winner := none, loser := none, bug := false, crashLog := [] } :=
  tie_game_clears_winner 0 1 _ _ (by decide) (by decide) (by decide) (by decide)

/-- Counterexample to C8 as stated: the line
`"Team wins by 3 points, Tie Game"` contains "Tie Game", yet processing
it from a state with score 5 changes the score to 3 (the independent
"wins by" block still fires), so the score is not left unchanged. -/
theorem tie_game_counterexample :
    strContains (str "Team wins by 3 points, Tie Game") tieMark = true ∧
    parseLine 0 1 { score := 5, winner := some 0, loser := some 1, bug := false,
                    crashLog := [] } (str "Team wins by 3 points, Tie Game") =
      .ok { score := 3, winner := none, loser := none, bug := false, crashLog := [] } := by
  decide

/-! ### C10: a "wins by" line with no color token -/

/-- C10 (amended): a line containing "wins by" whose score segment is a
well-formed integer and which contains none of "Red", "Blue", "Tie Game",
"agent crashed" updates the score to the absolute value of that integer
and leaves every other component — in particular winner and loser — as
previously set. -/
theorem wins_by_no_color_keeps_winner [DecidableEq τ] (red blue : τ) (st : PState τ)
    (line : Str) (n : Int)
    (hw : strContains line winsByMark = true)
    (hn : pyInt (winsBySeg line) = some n)
    (hr : strContains line redTok = false)
    (hb : strContains line blueTok = false)
    (ht : strContains line tieMark = false)
    (hc : strContains line crashMark = false) :
    parseLine red blue st line = .ok { st with score := n.natAbs } := by
  have hbr : strContains line blueRetMark = false := not_contains_mono (by decide) hb
  have hrr : strContains line redRetMark = false := not_contains_mono (by decide) hr
  simp [parseLine, parseWinsBy, parseChain, Except.bind, hw, hn, hr, hb, hbr, hrr, ht, hc]

/-- Witness for C10: `"alpha wins by 4 points"` sets the score to 4 from a
state with no winner, producing a non-zero-score, winner-less state. -/
theorem wins_by_no_color_keeps_winner_witness :
    parseLine 2 3 (initP ([] : List Nat)) (str "alpha wins by 4 points") =
      .ok { score := 4, winner := none, loser := none, bug := false, crashLog := [] } :=
  wins_by_no_color_keeps_winner 2 3 _ _ 4 (by decide) (by decide) (by decide)
    (by decide) (by decide) (by decide)

/-! ### Line-level bookkeeping lemmas for the parser -/

lemma parseLines_append [DecidableEq τ] (red blue : τ) (l1 l2 : List Str)
    (st : PState τ) :
    parseLines red blue st (l1 ++ l2) =
      (parseLines red blue st l1).bind (fun st1 => parseLines red blue st1 l2) := by
  induction l1 generalizing st with
  | nil => simp [parseLines, Except.bind]
  | cons l ls ih =>
    rw [List.cons_append, parseLines, parseLines]
    cases parseLine red blue st l with
    | error e => simp [Except.bind]
    | ok st1 => simp only [Except.bind]; exact ih st1

/-- Inert trailing lines leave the state alone. -/
lemma parseLines_of_inert [DecidableEq τ] (red blue : τ) (ls : List Str)
    (h : ∀ l ∈ ls, ∀ st : PState τ, parseLine red blue st l = .ok st)
    (st : PState τ) : parseLines red blue st ls = .ok st := by
  induction ls with
  | nil => rfl
  | cons l ls ih =>
    rw [parseLines, h l (List.mem_cons_self l ls) st]
    exact ih (fun l2 hm => h l2 (List.mem_cons_of_mem l hm))

/-- Effect of a clean "Blue agent crashed" line in `pacman-ssh-contest.py`:
bug flag set, winner/loser assigned, score forced to 1, one crash charged
to the blue team. -/
lemma blue_crash_step [DecidableEq τ] (red blue : τ) (st : PState τ) (line : Str)
    (hbc : strContains line blueCrashMark = true)
    (hw : strContains line winsByMark = false)
    (hbr : strContains line blueRetMark = false)
    (hrr : strContains line redRetMark = false)
    (ht : strContains line tieMark = false)
    (hrc : strContains line redCrashMark = false) :
    parseLine red blue st line =
      .ok { st with score := 1, winner := some red, loser := some blue, bug := true,
                    crashLog := st.crashLog ++ [blue] } := by
  have hc : strContains line crashMark = true := strContains_trans hbc (by decide)
  simp [parseLine, parseWinsBy, parseChain, Except.bind, hw, hbr, hrr, ht, hc, hrc, hbc]

lemma parseWinsBy_crashLog [DecidableEq τ] {red blue : τ} {st p : PState τ}
    {line : Str} (h : parseWinsBy red blue st line = .ok p) :
    p.crashLog = st.crashLog ∧ p.bug = st.bug := by
  unfold parseWinsBy at h
  split at h
  · split at h
    · cases h
    · split at h
      · cases h; exact ⟨rfl, rfl⟩
      · split at h
        · cases h; exact ⟨rfl, rfl⟩
        · cases h; exact ⟨rfl, rfl⟩
  · cases h; exact ⟨rfl, rfl⟩

lemma parseChain_crashLog [DecidableEq τ] {red blue : τ} {st p : PState τ}
    {line : Str} (h : parseChain red blue st line = .ok p) :
    p.crashLog = st.crashLog ++ lineDelta red blue line := by
  unfold parseChain at h
  unfold lineDelta
  split at h
  · rename_i h1
    split at h
    · cases h
    · cases h; simp [h1]
  · rename_i h1
    split at h
    · rename_i h2
      split at h
      · cases h
      · cases h; simp [h1, h2]
    · rename_i h2
      split at h
      · rename_i h3
        cases h; simp [h1, h2, h3]
      · rename_i h3
        split at h
        · rename_i h4
          cases h
          by_cases h5 : strContains line redCrashMark = true <;>
            by_cases h6 : strContains line blueCrashMark = true <;>
              simp [h1, h2, h3, h4, h5, h6]
        · rename_i h4
          cases h; simp [h1, h2, h3, h4]

lemma parseLine_crashLog [DecidableEq τ] {red blue : τ} {st p : PState τ}
    {line : Str} (h : parseLine red blue st line = .ok p) :
    p.crashLog = st.crashLog ++ lineDelta red blue line := by
  unfold parseLine at h
  cases hw : parseWinsBy red blue st line with
  | error e => rw [hw] at h; cases h
  | ok q =>
    rw [hw] at h
    simp only [Except.bind] at h
    rw [parseChain_crashLog h, (parseWinsBy_crashLog hw).1]

lemma parseLines_crashLog [DecidableEq τ] {red blue : τ} (ls : List Str) :
    ∀ {st p : PState τ}, parseLines red blue st ls = .ok p →
      p.crashLog = st.crashLog ++ ls.flatMap (lineDelta red blue) := by
  induction ls with
  | nil =>
    intro st p h
    cases h
    simp
  | cons l ls ih =>
    intro st p h
    rw [parseLines] at h
    cases hl : parseLine red blue st l with
    | error e => rw [hl] at h; cases h
    | ok q =>
      rw [hl] at h
      simp only [Except.bind] at h
      rw [List.flatMap_cons, ← List.append_assoc, ← parseLine_crashLog hl]
      exact ih h

lemma count_flatMap_zero [DecidableEq τ] (x : τ) (f : Str → List τ) (ls : List Str)
    (h : ∀ l ∈ ls, (f l).count x = 0) : (ls.flatMap f).count x = 0 := by
  induction ls with
  | nil => simp
  | cons l ls ih =>
    rw [List.flatMap_cons, List.count_append, h l (List.mem_cons_self l ls),
      ih (fun l2 hm => h l2 (List.mem_cons_of_mem l hm))]

lemma lineDelta_count_blue [DecidableEq τ] {red blue : τ} (hrb : red ≠ blue)
    {line : Str} (h : strContains line blueCrashMark = false) :
    (lineDelta red blue line).count blue = 0 := by
  unfold lineDelta
  split
  · simp
  · split
    · simp
    · split
      · simp
      · split
        · by_cases h5 : strContains line redCrashMark = true <;>
            simp [h5, h, List.count_singleton, Ne.symm hrb]
        · simp

/-! ### C2: effect of a "Blue agent crashed" line -/

/-- C2 (amended, `pacman-ssh-contest.py`): if the split output is
`pre ++ [l] ++ post` where `l` is the only line containing
"Blue agent crashed", `l` contains none of the markers that shadow the
crash rule on the same line ("wins by", the two "has returned at least"
markers, "Tie Game") nor "Red agent crashed", the prefix parses without
exception, and every later line leaves any parser state unchanged, then
the parse yields score 1, winner red, loser blue, bug flag true, and the
blue team's crash counter incremented by exactly 1. -/
theorem blue_crash_outcome [DecidableEq τ] (red blue : τ) (log : List τ)
    (output : Str) (pre post : List Str) (l : Str) (stp : PState τ)
    (hrb : red ≠ blue)
    (hsplit : pySplitlines output = pre ++ l :: post)
    (hpre : parseLines red blue (initP log) pre = .ok stp)
    (hbc : strContains l blueCrashMark = true)
    (hw : strContains l winsByMark = false)
    (hbr : strContains l blueRetMark = false)
    (hrr : strContains l redRetMark = false)
    (ht : strContains l tieMark = false)
    (hrc : strContains l redCrashMark = false)
    (honce : ∀ l2 ∈ pre, strContains l2 blueCrashMark = false)
    (hpost : ∀ l2 ∈ post, ∀ st : PState τ, parseLine red blue st l2 = .ok st) :
    parse_result red blue log output =
      .ok { score := 1, winner := some red, loser := some blue, bug := true,
            crashLog := stp.crashLog ++ [blue] }
    ∧ (stp.crashLog ++ [blue]).count blue = log.count blue + 1 := by
  constructor
  · rw [parse_result, hsplit, parseLines_append, hpre]
    simp only [Except.bind]
    rw [parseLines, blue_crash_step red blue stp l hbc hw hbr hrr ht hrc]
    simp only [Except.bind]
    exact parseLines_of_inert red blue post hpost _
  · have hd := parseLines_crashLog pre hpre
    have hz : (pre.flatMap (lineDelta red blue)).count blue = 0 :=
      count_flatMap_zero blue _ pre
        (fun l2 hm => lineDelta_count_blue hrb (honce l2 hm))
    rw [List.count_append, hd, List.count_append, hz, initP]
    simp [List.count_singleton]

/-- Witness for C2: a score line followed by a blue-crash line. -/
theorem blue_crash_outcome_witness :
    parse_result 0 1 [] (str "Red wins by 3 points\nBlue agent crashed") =
      .ok { score := 1, winner := some 0, loser := some 1, bug := true,
            crashLog := [1] }
    ∧ ([] ++ [1] : List Nat).count 1 = ([] : List Nat).count 1 + 1 :=
  blue_crash_outcome 0 1 [] (str "Red wins by 3 points\nBlue agent crashed")
    [str "Red wins by 3 points"] [] (str "Blue agent crashed")
    { score := 3, winner := some 0, loser := some 1, bug := false, crashLog := [] }
    (by decide) (by decide) (by decide) (by decide) (by decide) (by decide)
    (by decide) (by decide) (by decide) (by decide)
    (by intro l2 hm; cases hm)

/-- Counterexample to C2 as stated: the single-line output
`"Tie Game and Blue agent crashed"` contains "Blue agent crashed" (and no
later line at all), yet it parses as a tie with no bug flag and no crash
charged: the "Tie Game" check sits earlier in the same `elif` chain and
shadows the crash rule. -/
theorem blue_crash_counterexample :
    strContains (str "Tie Game and Blue agent crashed") blueCrashMark = true ∧
    parse_result 0 1 [] (str "Tie Game and Blue agent crashed") =
      .ok { score := 0, winner := none, loser := none, bug := false, crashLog := [] } := by
  decide

/-! ### C3: a crash line appearing after all score lines forces score 1 -/

/-- A crash line (not shadowed by the earlier rules of the `elif` chain)
sets the bug flag and forces the score to 1. -/
lemma crash_line_bug_score [DecidableEq τ] {red blue : τ} {st p : PState τ}
    {line : Str}
    (hcl : strContains line redCrashMark = true ∨
      strContains line blueCrashMark = true)
    (hw : strContains line winsByMark = false)
    (hbr : strContains line blueRetMark = false)
    (hrr : strContains line redRetMark = false)
    (ht : strContains line tieMark = false)
    (h : parseLine red blue st line = .ok p) :
    p.bug = true ∧ p.score = 1 := by
  have hc : strContains line crashMark = true := by
    cases hcl with
    | inl h1 => exact strContains_trans h1 (by decide)
    | inr h1 => exact strContains_trans h1 (by decide)
  rw [parseLine] at h
  simp only [parseWinsBy, hw, Bool.false_eq_true, if_false, Except.bind] at h
  rw [parseChain] at h
  simp only [hbr, hrr, ht, hc, Bool.false_eq_true, if_false, if_true] at h
  by_cases h5 : strContains line redCrashMark = true
  · by_cases h6 : strContains line blueCrashMark = true
    · simp only [h5, h6, if_true] at h
      cases h
      exact ⟨rfl, rfl⟩
    · simp only [h5, if_true, Bool.not_eq_true] at h
      rw [eq_false_of_ne_true h6] at h
      simp only [Bool.false_eq_true, if_false] at h
      cases h
      exact ⟨rfl, rfl⟩
  · have h5f : strContains line redCrashMark = false := eq_false_of_ne_true h5
    have h6 : strContains line blueCrashMark = true := by
      cases hcl with
      | inl h1 => exact absurd h1 h5
      | inr h1 => exact h1
    simp only [h5f, h6, Bool.false_eq_true, if_false, if_true] at h
    cases h
    exact ⟨rfl, rfl⟩

/-- Once the bug flag is set and the score is 1, any line free of the
rule-1/rule-2 markers keeps them so. -/
lemma bug_score_preserved [DecidableEq τ] {red blue : τ} {st p : PState τ}
    {line : Str}
    (hb : st.bug = true) (hs : st.score = 1)
    (hw : strContains line winsByMark = false)
    (hbr : strContains line blueRetMark = false)
    (hrr : strContains line redRetMark = false)
    (h : parseLine red blue st line = .ok p) :
    p.bug = true ∧ p.score = 1 := by
  rw [parseLine] at h
  simp only [parseWinsBy, hw, Bool.false_eq_true, if_false, Except.bind] at h
  rw [parseChain] at h
  simp only [hbr, hrr, Bool.false_eq_true, if_false] at h
  by_cases ht : strContains line tieMark = true
  · simp only [ht, if_true] at h
    cases h
    exact ⟨hb, hs⟩
  · rw [eq_false_of_ne_true ht] at h
    simp only [Bool.false_eq_true, if_false] at h
    by_cases hc : strContains line crashMark = true
    · simp only [hc, if_true] at h
      by_cases h5 : strContains line redCrashMark = true
      · by_cases h6 : strContains line blueCrashMark = true
        · simp only [h5, h6, if_true] at h
          cases h; exact ⟨rfl, rfl⟩
        · simp only [h5, eq_false_of_ne_true h6, Bool.false_eq_true, if_true,
            if_false] at h
          cases h; exact ⟨rfl, rfl⟩
      · by_cases h6 : strContains line blueCrashMark = true
        · simp only [eq_false_of_ne_true h5, h6, Bool.false_eq_true, if_true,
            if_false] at h
          cases h; exact ⟨rfl, rfl⟩
        · simp only [eq_false_of_ne_true h5, eq_false_of_ne_true h6,
            Bool.false_eq_true, if_false] at h
          cases h; exact ⟨rfl, hs⟩
    · rw [eq_false_of_ne_true hc] at h
      simp only [Bool.false_eq_true, if_false] at h
      cases h
      exact ⟨hb, hs⟩

lemma parseLines_bug_score [DecidableEq τ] {red blue : τ} (ls : List Str)
    (h12 : ∀ l2 ∈ ls, strContains l2 winsByMark = false ∧
      strContains l2 blueRetMark = false ∧ strContains l2 redRetMark = false) :
    ∀ {st p : PState τ}, st.bug = true → st.score = 1 →
      parseLines red blue st ls = .ok p → p.bug = true ∧ p.score = 1 := by
  induction ls with
  | nil =>
    intro st p hb hs h
    cases h
    exact ⟨hb, hs⟩
  | cons l ls ih =>
    intro st p hb hs h
    rw [parseLines] at h
    cases hl : parseLine red blue st l with
    | error e => rw [hl] at h; cases h
    | ok q =>
      rw [hl] at h
      simp only [Except.bind] at h
      obtain ⟨hw, hbr, hrr⟩ := h12 l (List.mem_cons_self l ls)
      obtain ⟨hqb, hqs⟩ := bug_score_preserved hb hs hw hbr hrr hl
      exact ih (fun l2 hm => h12 l2 (List.mem_cons_of_mem l hm)) hqb hqs h

/-- C3 (amended): if the output splits as `pre ++ [l] ++ post` where `l`
contains "Red agent crashed" or "Blue agent crashed" but not "Tie Game"
(which would shadow the crash rule on the same line), no line from `l`
onwards contains a rule-1 ("wins by") or rule-2 ("has returned at least")
marker, and the parse terminates normally, then the parsed outcome has
the bug flag set and score exactly 1, overriding any score set earlier. -/
theorem crash_overrides_score [DecidableEq τ] (red blue : τ) (log : List τ)
    (output : Str) (pre post : List Str) (l : Str) (p : PState τ)
    (hsplit : pySplitlines output = pre ++ l :: post)
    (hok : parse_result red blue log output = .ok p)
    (hcl : strContains l redCrashMark = true ∨ strContains l blueCrashMark = true)
    (ht : strContains l tieMark = false)
    (h12 : ∀ l2 ∈ l :: post, strContains l2 winsByMark = false ∧
      strContains l2 blueRetMark = false ∧ strContains l2 redRetMark = false) :
    p.bug = true ∧ p.score = 1 := by
  rw [parse_result, hsplit, parseLines_append] at hok
  cases hq : parseLines red blue (initP log) pre with
  | error e => rw [hq] at hok; cases hok
  | ok q =>
    rw [hq] at hok
    simp only [Except.bind] at hok
    rw [parseLines] at hok
    obtain ⟨hwl, hbrl, hrrl⟩ := h12 l (List.mem_cons_self l post)
    cases hq1 : parseLine red blue q l with
    | error e => rw [hq1] at hok; cases hok
    | ok q1 =>
      rw [hq1] at hok
      simp only [Except.bind] at hok
      obtain ⟨h1, h2⟩ := crash_line_bug_score hcl hwl hbrl hrrl ht hq1
      exact parseLines_bug_score post
        (fun l2 hm => h12 l2 (List.mem_cons_of_mem l hm)) h1 h2 hok

/-- Witness for C3: a score line followed by a red-crash line. -/
theorem crash_overrides_score_witness :
    ({ score := 1, winner := some 1, loser := some 0, bug := true,
       crashLog := [0] } : PState Nat).bug = true ∧
    ({ score := 1, winner := some 1, loser := some 0, bug := true,
       crashLog := [0] } : PState Nat).score = 1 :=
  crash_overrides_score 0 1 [] (str "Red wins by 5 points\nRed agent crashed")
    [str "Red wins by 5 points"] [] (str "Red agent crashed") _
    (by decide) (by decide) (Or.inl (by decide)) (by decide) (by decide)

/-- Counterexample to C3 as stated: in the single-line output
`"Tie Game - Red agent crashed"` the crash line trivially appears after
all rule-1/rule-2 lines (there are none), yet the parse ends with the
bug flag false and score 0: "Tie Game" shadows the crash rule. -/
theorem crash_overrides_counterexample :
    strContains (str "Tie Game - Red agent crashed") redCrashMark = true ∧
    (∀ l2 ∈ pySplitlines (str "Tie Game - Red agent crashed"),
      strContains l2 winsByMark = false ∧
      strContains l2 blueRetMark = false ∧
      strContains l2 redRetMark = false) ∧
    parse_result 0 1 [] (str "Tie Game - Red agent crashed") =
      .ok { score := 0, winner := none, loser := none, bug := false,
            crashLog := [] } := by
  decide

/-! ### C4: totality of parsing and aggregation -/

lemma exists_ok {α : Type} {e : Except Unit α} (h : e ≠ .error ()) :
    ∃ q, e = .ok q := by
  cases e with
  | error u => cases u; exact absurd rfl h
  | ok q => exact ⟨q, rfl⟩

lemma parseWinsBy_total [DecidableEq τ] (red blue : τ) (st : PState τ) (line : Str)
    (h1 : strContains line winsByMark = true →
      (pyInt (winsBySeg line)).isSome = true) :
    parseWinsBy red blue st line ≠ .error () := by
  unfold parseWinsBy
  split
  · rename_i hw
    cases hpi : pyInt (winsBySeg line) with
    | none =>
      have := h1 hw
      rw [hpi] at this
      cases this
    | some n =>
      simp only [hpi]
      split
      · intro hcon; cases hcon
      · split
        · intro hcon; cases hcon
        · intro hcon; cases hcon
  · intro hcon; cases hcon

lemma parseChain_total [DecidableEq τ] (red blue : τ) (st : PState τ) (line : Str)
    (h2 : strContains line blueRetMark = true →
      (pyInt (retSeg blueRetMark line)).isSome = true)
    (h3 : strContains line redRetMark = true →
      strContains line blueRetMark = false →
      (pyInt (retSeg redRetMark line)).isSome = true) :
    parseChain red blue st line ≠ .error () := by
  unfold parseChain
  split
  · rename_i hbr
    cases hpi : pyInt (retSeg blueRetMark line) with
    | none =>
      have := h2 hbr
      rw [hpi] at this
      cases this
    | some n =>
      simp only [hpi]
      intro hcon; cases hcon
  · rename_i hbr
    split
    · rename_i hrr
      cases hpi : pyInt (retSeg redRetMark line) with
      | none =>
        have := h3 hrr (eq_false_of_ne_true hbr)
        rw [hpi] at this
        cases this
      | some n =>
        simp only [hpi]
        intro hcon; cases hcon
    · split
      · intro hcon; cases hcon
      · split
        · split
          · split
            · intro hcon; cases hcon
            · intro hcon; cases hcon
          · split
            · intro hcon; cases hcon
            · intro hcon; cases hcon
        · intro hcon; cases hcon

lemma parseLine_total [DecidableEq τ] (red blue : τ) (st : PState τ) (line : Str)
    (hwf : wellFormedLine line = true) :
    ∃ p, parseLine red blue st line = .ok p := by
  have hw := hwf
  unfold wellFormedLine at hw
  simp only [Bool.and_eq_true, Bool.or_eq_true, Bool.not_eq_true',
    Bool.and_eq_true, Bool.not_eq_true] at hw
  obtain ⟨⟨hw1, hw2⟩, hw3⟩ := hw
  have h1 : strContains line winsByMark = true →
      (pyInt (winsBySeg line)).isSome = true := by
    intro h
    rcases hw1 with h' | h'
    · rw [h] at h'; cases h'
    · exact h'
  have h2 : strContains line blueRetMark = true →
      (pyInt (retSeg blueRetMark line)).isSome = true := by
    intro h
    rcases hw2 with h' | h'
    · rw [h] at h'; cases h'
    · exact h'
  have h3 : strContains line redRetMark = true →
      strContains line blueRetMark = false →
      (pyInt (retSeg redRetMark line)).isSome = true := by
    intro h hb
    rcases hw3 with h' | h'
    · rw [Bool.and_eq_false_iff] at h'
      rcases h' with h' | h'
      · rw [h] at h'; cases h'
      · exfalso
        revert h'
        rw [hb]
        decide
    · exact h'
  obtain ⟨q, hq⟩ := exists_ok (parseWinsBy_total red blue st line h1)
  obtain ⟨p, hp⟩ := exists_ok (parseChain_total red blue q line h2 h3)
  exact ⟨p, by rw [parseLine, hq]; simpa [Except.bind] using hp⟩

lemma parseLines_total [DecidableEq τ] (red blue : τ) (ls : List Str)
    (h : ∀ l ∈ ls, wellFormedLine l = true) :
    ∀ st : PState τ, ∃ p, parseLines red blue st ls = .ok p := by
  induction ls with
  | nil => exact fun st => ⟨st, rfl⟩
  | cons l ls ih =>
    intro st
    obtain ⟨q, hq⟩ := parseLine_total red blue st l (h l (List.mem_cons_self l ls))
    obtain ⟨p, hp⟩ := ih (fun l2 hm => h l2 (List.mem_cons_of_mem l hm)) q
    exact ⟨p, by rw [parseLines, hq]; simpa [Except.bind] using hp⟩

/-- The winner/loser fields stay in sync: a state with a winner always
has a loser. -/
lemma parseWinsBy_wl [DecidableEq τ] {red blue : τ} {st q : PState τ} {line : Str}
    (hinv : st.winner = none ∨ st.loser.isSome = true)
    (h : parseWinsBy red blue st line = .ok q) :
    q.winner = none ∨ q.loser.isSome = true := by
  unfold parseWinsBy at h
  split at h
  · split at h
    · cases h
    · split at h
      · cases h; right; rfl
      · split at h
        · cases h; right; rfl
        · cases h; exact hinv
  · cases h; exact hinv

lemma parseChain_wl [DecidableEq τ] {red blue : τ} {st q : PState τ} {line : Str}
    (hinv : st.winner = none ∨ st.loser.isSome = true)
    (h : parseChain red blue st line = .ok q) :
    q.winner = none ∨ q.loser.isSome = true := by
  unfold parseChain at h
  split at h
  · split at h
    · cases h
    · cases h; right; rfl
  · split at h
    · split at h
      · cases h
      · cases h; right; rfl
    · split at h
      · cases h; left; rfl
      · split at h
        · split at h
          · split at h
            · cases h; right; rfl
            · cases h; right; rfl
          · split at h
            · cases h; right; rfl
            · cases h; exact hinv
        · cases h; exact hinv

lemma parseLine_wl [DecidableEq τ] {red blue : τ} {st p : PState τ} {line : Str}
    (hinv : st.winner = none ∨ st.loser.isSome = true)
    (h : parseLine red blue st line = .ok p) :
    p.winner = none ∨ p.loser.isSome = true := by
  rw [parseLine] at h
  cases hq : parseWinsBy red blue st line with
  | error e => rw [hq] at h; cases h
  | ok q =>
    rw [hq] at h
    simp only [Except.bind] at h
    exact parseChain_wl (parseWinsBy_wl hinv hq) h

lemma parseLines_wl [DecidableEq τ] {red blue : τ} (ls : List Str) :
    ∀ {st p : PState τ}, (st.winner = none ∨ st.loser.isSome = true) →
      parseLines red blue st ls = .ok p →
      p.winner = none ∨ p.loser.isSome = true := by
  induction ls with
  | nil =>
    intro st p hinv h
    cases h
    exact hinv
  | cons l ls ih =>
    intro st p hinv h
    rw [parseLines] at h
    cases hq : parseLine red blue st l with
    | error e => rw [hq] at h; cases h
    | ok q =>
      rw [hq] at h
      simp only [Except.bind] at h
      exact ih (parseLine_wl hinv hq) h

lemma foldOutcome_total [DecidableEq τ] (red blue : τ) (score : Nat)
    {winner loser : Option τ} (lad : τ → List Int)
    (hinv : winner = none ∨ loser.isSome = true) :
    ∃ f, foldOutcome red blue score winner loser lad = .ok f := by
  cases winner with
  | none => exact ⟨_, rfl⟩
  | some w =>
    cases loser with
    | some l => exact ⟨_, rfl⟩
    | none =>
      rcases hinv with h | h
      · cases h
      · cases h

/-- C4 (amended): parsing one match output and folding its outcome into
the ladders produce a value — never an exception — for every output text
whose rule-matched lines all carry well-formed integer segments.  (On
other texts the claim fails: `int(...)` raises `ValueError`, see the
counterexample.) -/
theorem parse_and_fold_never_raise [DecidableEq τ] (red blue : τ) (layout : Λ)
    (out : Str) (s : Tourn τ Λ)
    (h : ∀ line ∈ pySplitlines out, wellFormedLine line = true) :
    ∃ s2, analyse_output red blue layout out s = .ok s2 := by
  obtain ⟨p, hp⟩ := parseLines_total red blue (pySplitlines out) h (initP s.crashLog)
  have hinv : p.winner = none ∨ p.loser.isSome = true :=
    parseLines_wl (pySplitlines out) (Or.inl rfl) hp
  obtain ⟨f, hf⟩ := foldOutcome_total red blue p.score s.ladder hinv
  refine ⟨{ ladder := f,
            games := s.games ++
              [(red, blue, layout, (if p.bug then 9999 else p.score), p.winner)],
            crashLog := p.crashLog }, ?_⟩
  rw [analyse_output, parse_result, hp]
  simp only [Except.bind]
  rw [hf]
  rfl

/-- Witness for C4 on a concrete well-formed output. -/
theorem parse_and_fold_never_raise_witness :
    ∃ s2, analyse_output 0 1 (10 : Nat) (str "Red wins by 3 points\nTie Game")
      { ladder := fun _ => [], games := [], crashLog := [] } = .ok s2 :=
  parse_and_fold_never_raise 0 1 10 _ _ (by decide)

/-- Counterexample to C4 as stated: on the output
`"A wins by many points"` — a "wins by" line whose following characters
do not form an integer before "points" — the parse raises (`ValueError`
in Python, `Except.error` here) instead of producing a value. -/
theorem parse_raises_counterexample :
    analyse_output 0 1 (10 : Nat) (str "A wins by many points")
      { ladder := fun _ => [], games := [], crashLog := [] } = .error () := rfl

/-! ### C5: two ladder entries per outcome -/

/-- C5 (amended, `pacman-ssh-contest.py`): folding a parsed outcome into
the ladder appends exactly two entries, one per participating team: with
no winner both participants get the raw score unchanged in sign; with a
winner the winner gets `+score` and the loser `-score`; nobody else's
ladder changes.  (In `ssh_commands_script.py` this holds only for
non-crashed outcomes: its ladder update is guarded by `if not bug:` and
crashed outcomes append nothing — see the counterexample.) -/
theorem ladder_two_entries [DecidableEq τ] (red blue w l : τ) (score : Nat)
    (lad : τ → List Int) (hrb : red ≠ blue) (hwl : w ≠ l) :
    (∃ f, foldOutcome red blue score none none lad = .ok f ∧
      f red = lad red ++ [(score : Int)] ∧
      f blue = lad blue ++ [(score : Int)] ∧
      ∀ t, t ≠ red → t ≠ blue → f t = lad t)
    ∧ (∃ f, foldOutcome red blue score (some w) (some l) lad = .ok f ∧
      f w = lad w ++ [(score : Int)] ∧
      f l = lad l ++ [-(score : Int)] ∧
      ∀ t, t ≠ w → t ≠ l → f t = lad t) := by
  constructor
  · refine ⟨_, rfl, ?_, ?_, ?_⟩
    · simp [appendL, hrb]
    · simp [appendL, Ne.symm hrb]
    · intro t h1 h2
      simp [appendL, h1, h2]
  · refine ⟨_, rfl, ?_, ?_, ?_⟩
    · simp [appendL, hwl]
    · simp [appendL, Ne.symm hwl]
    · intro t h1 h2
      simp [appendL, h1, h2]

/-- Witness for C5 on a concrete winner outcome. -/
theorem ladder_two_entries_witness :
    ∃ f, foldOutcome 0 1 5 (some 0) (some 1) (fun _ => ([] : List Int)) = .ok f ∧
      f 0 = (fun _ => ([] : List Int)) 0 ++ [(5 : Int)] ∧
      f 1 = (fun _ => ([] : List Int)) 1 ++ [-(5 : Int)] ∧
      ∀ t, t ≠ 0 → t ≠ 1 → f t = (fun _ => ([] : List Int)) t :=
  (ladder_two_entries 0 1 0 1 5 (fun _ => []) (by decide) (by decide)).2

/-- Counterexample to C5 as stated: the `ssh_commands_script.py` ladder
update on a crashed outcome (bug flag true, winner team 0, loser team 1,
score 1) appends no entry to either participant's ladder. -/
theorem ladder_two_entries_counterexample :
    (foldOutcomeSsh 0 1 1 (some 0) (some 1) true (fun _ => ([] : List Int))).map
      (fun f => (f 0, f 1)) = .ok ([], []) := by
  decide

/-! ### C6: order independence of standings aggregation

The scan state's non-log fields never depend on the incoming crash log,
and the log only ever grows by appends determined by the text alone; the
lemmas below split the log off so that each returned record's effect on
the tournament state becomes a pure function of the record. -/

lemma parseWinsBy_log_split [DecidableEq τ] (red blue : τ) (st : PState τ)
    (line : Str) (L : List τ) :
    parseWinsBy red blue { st with crashLog := L ++ st.crashLog } line =
      (parseWinsBy red blue st line).map
        (fun p => { p with crashLog := L ++ p.crashLog }) := by
  unfold parseWinsBy
  split
  · cases hpi : pyInt (winsBySeg line) with
    | none => simp [hpi, Except.map]
    | some n =>
      simp only [hpi]
      split
      · simp [Except.map]
      · split <;> simp [Except.map]
  · simp [Except.map]

lemma parseChain_log_split [DecidableEq τ] (red blue : τ) (st : PState τ)
    (line : Str) (L : List τ) :
    parseChain red blue { st with crashLog := L ++ st.crashLog } line =
      (parseChain red blue st line).map
        (fun p => { p with crashLog := L ++ p.crashLog }) := by
  unfold parseChain
  split
  · cases hpi : pyInt (retSeg blueRetMark line) with
    | none => simp [hpi, Except.map]
    | some n => simp [hpi, Except.map]
  · split
    · cases hpi : pyInt (retSeg redRetMark line) with
      | none => simp [hpi, Except.map]
      | some n => simp [hpi, Except.map]
    · split
      · simp [Except.map]
      · split
        · split
          · split <;> simp [Except.map, List.append_assoc]
          · split <;> simp [Except.map, List.append_assoc]
        · simp [Except.map]

lemma parseLine_log_split [DecidableEq τ] (red blue : τ) (st : PState τ)
    (line : Str) (L : List τ) :
    parseLine red blue { st with crashLog := L ++ st.crashLog } line =
      (parseLine red blue st line).map
        (fun p => { p with crashLog := L ++ p.crashLog }) := by
  rw [parseLine, parseLine, parseWinsBy_log_split]
  cases hq : parseWinsBy red blue st line with
  | error e => simp [Except.map, Except.bind]
  | ok q =>
    simp only [Except.map, Except.bind]
    exact parseChain_log_split red blue q line L

lemma parseLines_log_split [DecidableEq τ] (red blue : τ) (ls : List Str) :
    ∀ (st : PState τ) (L : List τ),
      parseLines red blue { st with crashLog := L ++ st.crashLog } ls =
        (parseLines red blue st ls).map
          (fun p => { p with crashLog := L ++ p.crashLog }) := by
  induction ls with
  | nil => intro st L; simp [parseLines, Except.map]
  | cons l ls ih =>
    intro st L
    rw [parseLines, parseLines, parseLine_log_split]
    cases hq : parseLine red blue st l with
    | error e => simp [Except.map, Except.bind]
    | ok q =>
      simp only [Except.map, Except.bind]
      exact ih q L

/-- `_parse_result` with ambient crash log `L` equals `_parse_result`
with an empty log, with `L` prepended to the produced log. -/
lemma parse_result_log_split [DecidableEq τ] (red blue : τ) (L : List τ)
    (out : Str) :
    parse_result red blue L out =
      (parse_result red blue [] out).map
        (fun p => { p with crashLog := L ++ p.crashLog }) := by
  rw [parse_result, parse_result]
  have he : (initP L : PState τ) =
      { (initP [] : PState τ) with
        crashLog := L ++ (initP [] : PState τ).crashLog } := by
    simp [initP]
  rw [he, parseLines_log_split]

lemma appendL_pair [DecidableEq τ] (lad : τ → List Int) (a b : τ) (u v : Int)
    (t : τ) :
    appendL (appendL lad a u) b v t =
      lad t ++ ((if t = a then [u] else []) ++ (if t = b then [v] else [])) := by
  unfold appendL
  by_cases h2 : t = b
  · subst h2
    by_cases h1 : t = a
    · subst h1; simp
    · simp [h1]
  · by_cases h1 : t = a
    · subst h1; simp [h2]
    · simp [h1, h2]

lemma analyse_output_decomp [DecidableEq τ] (r : RRes τ Λ) (s : Tourn τ Λ)
    (hok : resOK r = true) :
    ∃ s2, analyse_output r.red r.blue r.layout r.text s = .ok s2 ∧
      (∀ t, s2.ladder t = s.ladder t ++ ladDelta t r) ∧
      s2.crashLog = s.crashLog ++ logDelta r := by
  unfold resOK at hok
  cases hp : parse_result r.red r.blue [] r.text with
  | error e => rw [hp] at hok; cases hok
  | ok p =>
    rw [hp] at hok
    rw [analyse_output, parse_result_log_split, hp]
    simp only [Except.map, Except.bind]
    cases hw : p.winner with
    | none =>
      simp only [hw, foldOutcome, Except.map]
      refine ⟨_, rfl, ?_, ?_⟩
      · intro t
        simp only [ladDelta, hp, hw, appendL_pair]
      · simp only [logDelta, hp]
    | some w =>
      cases hl : p.loser with
      | none =>
        exfalso
        have hok2 : (!(p.winner.isSome && p.loser.isNone)) = true := hok
        rw [hw, hl] at hok2
        simp at hok2
      | some l =>
        simp only [hw, hl, foldOutcome, Except.map]
        refine ⟨_, rfl, ?_, ?_⟩
        · intro t
          simp only [ladDelta, hp, hw, hl, appendL_pair]
        · simp only [logDelta, hp]

lemma analyse_all_decomp [DecidableEq τ] (rs : List (RRes τ Λ)) :
    ∀ s : Tourn τ Λ, (∀ r ∈ rs, resOK r = true) →
      ∃ sf, analyse_all_outputs rs s = .ok sf ∧
        (∀ t, sf.ladder t = s.ladder t ++ rs.flatMap (fun r => ladDelta t r)) ∧
        sf.crashLog = s.crashLog ++ rs.flatMap logDelta := by
  induction rs with
  | nil =>
    intro s _
    exact ⟨s, rfl, by simp, by simp⟩
  | cons r rs ih =>
    intro s h
    obtain ⟨s2, h2, hlad2, hlog2⟩ :=
      analyse_output_decomp r s (h r (List.mem_cons_self r rs))
    obtain ⟨sf, hf, hladf, hlogf⟩ :=
      ih s2 (fun r2 hm => h r2 (List.mem_cons_of_mem r hm))
    refine ⟨sf, ?_, ?_, ?_⟩
    · rw [analyse_all_outputs, h2]
      simpa [Except.bind] using hf
    · intro t
      rw [hladf t, hlad2 t, List.flatMap_cons, List.append_assoc]
    · rw [hlogf, hlog2, List.flatMap_cons, List.append_assoc]

/-- C6: feeding the same records to `_analyse_all_outputs` in any
permutation (any arrival order of the batch results) yields identical
final team statistics — points, wins, draws, losses, crash count and
score balance — for every team.  (The records are assumed to process
without exception; an exception aborts the run in either order.) -/
theorem standings_order_independent [DecidableEq τ] (rs1 rs2 : List (RRes τ Λ))
    (s : Tourn τ Λ) (hperm : rs1.Perm rs2)
    (hok : ∀ r ∈ rs1, resOK r = true) :
    ∀ t, (analyse_all_outputs rs1 s).map (fun x => calculate_team_stats x t) =
      (analyse_all_outputs rs2 s).map (fun x => calculate_team_stats x t) := by
  intro t
  have hok2 : ∀ r ∈ rs2, resOK r = true := fun r hm =>
    hok r (hperm.mem_iff.mpr hm)
  obtain ⟨s1, h1, hlad1, hlog1⟩ := analyse_all_decomp rs1 s hok
  obtain ⟨s2, h2, hlad2, hlog2⟩ := analyse_all_decomp rs2 s hok2
  rw [h1, h2]
  simp only [Except.map]
  have hpl : (rs1.flatMap (fun r => ladDelta t r)).Perm
      (rs2.flatMap (fun r => ladDelta t r)) := hperm.flatMap_right _
  have hlp : (s1.ladder t).Perm (s2.ladder t) := by
    rw [hlad1 t, hlad2 t]
    exact hpl.append_left _
  have hgp : (s1.crashLog).Perm (s2.crashLog) := by
    rw [hlog1, hlog2]
    exact (hperm.flatMap_right logDelta).append_left _
  unfold calculate_team_stats
  rw [hlp.countP_eq, hlp.countP_eq, hlp.countP_eq, hlp.sum_eq, hgp.count_eq t]

/-- Witness for C6: two records processed in both orders give the same
statistics for team 1. -/
theorem standings_order_independent_witness :
    (analyse_all_outputs
      [⟨0, 1, 10, 0, str "Red wins by 2 points"⟩,
       ⟨0, 1, 11, 0, str "Blue agent crashed"⟩]
      { ladder := fun _ => [], games := [], crashLog := [] }).map
      (fun x => calculate_team_stats x 1) =
    (analyse_all_outputs
      [⟨0, 1, 11, 0, str "Blue agent crashed"⟩,
       ⟨0, 1, 10, 0, str "Red wins by 2 points"⟩]
      { ladder := fun _ => [], games := [], crashLog := [] }).map
      (fun x => calculate_team_stats x 1) :=
  standings_order_independent _ _ _ (by decide) (by decide) 1

/-! ### C7: the 9999 crash sentinel in the per-game record -/

/-- C7 (amended, `pacman-ssh-contest.py`): for every parsed outcome, the
per-game record handed to the report carries the sentinel 9999 in place
of the score exactly when the bug flag is set (and the real parsed score
otherwise, together with the parsed winner), while the real parsed
score — 1 whenever a color-attributed crash line fixed it, 0 for a bare
"agent crashed" line — was already folded into the ladders: `+score` to
the winner and `-score` to the loser, the raw score to both participants
when there is no winner, and nothing to anyone else. -/
theorem crash_sentinel_record [DecidableEq τ] (red blue : τ) (layout : Λ)
    (out : Str) (s : Tourn τ Λ) (pst : PState τ)
    (hp : parse_result red blue s.crashLog out = .ok pst) :
    (analyse_output red blue layout out s).map (fun s2 => s2.games) =
      .ok (s.games ++ [(red, blue, layout,
        (if pst.bug then 9999 else pst.score), pst.winner)])
    ∧ ∀ t, (analyse_output red blue layout out s).map (fun s2 => s2.ladder t) =
      .ok (s.ladder t ++ outcomeEntries red blue pst t) := by
  have hp2 : parseLines red blue (initP s.crashLog) (pySplitlines out) =
      .ok pst := hp
  have hinv : pst.winner = none ∨ pst.loser.isSome = true :=
    parseLines_wl (pySplitlines out) (Or.inl rfl) hp2
  rw [analyse_output, hp]
  simp only [Except.bind]
  cases hw : pst.winner with
  | none =>
    simp only [hw, foldOutcome, Except.map]
    refine ⟨trivial, ?_⟩
    intro t
    simp only [appendL_pair, outcomeEntries, hw]
  | some w =>
    cases hl : pst.loser with
    | none =>
      exfalso
      rcases hinv with h | h
      · rw [hw] at h; cases h
      · rw [hl] at h; cases h
    | some l =>
      simp only [hw, hl, foldOutcome, Except.map]
      refine ⟨trivial, ?_⟩
      intro t
      simp only [appendL_pair, outcomeEntries, hw, hl]

/-- Witness for C7 on a crashed match: sentinel in the record, real
score 1 folded `+`/`-` into the two participants' ladders. -/
theorem crash_sentinel_record_witness :
    (analyse_output 0 1 (10 : Nat) (str "Blue agent crashed")
      { ladder := fun _ => [], games := [], crashLog := [] }).map
      (fun s2 => s2.games) = .ok [(0, 1, 10, 9999, some 0)]
    ∧ (analyse_output 0 1 (10 : Nat) (str "Blue agent crashed")
      { ladder := fun _ => [], games := [], crashLog := [] }).map
      (fun s2 => s2.ladder 0) = .ok [(1 : Int)]
    ∧ (analyse_output 0 1 (10 : Nat) (str "Blue agent crashed")
      { ladder := fun _ => [], games := [], crashLog := [] }).map
      (fun s2 => s2.ladder 1) = .ok [-(1 : Int)] := by
  have h := crash_sentinel_record 0 1 (10 : Nat) (str "Blue agent crashed")
    { ladder := fun _ => [], games := [], crashLog := [] }
    { score := 1, winner := some 0, loser := some 1, bug := true, crashLog := [1] }
    (by decide)
  exact ⟨h.1, h.2 0, h.2 1⟩

/-- Counterexample to C7 as stated: on the output `"agent crashed"`
(a crash attributed to neither color) the record carries the sentinel
9999, but the score folded into both ladders is the parsed score 0 —
not 1 as the claim asserts. -/
theorem crash_sentinel_counterexample :
    (analyse_output 0 1 (10 : Nat) (str "agent crashed")
      { ladder := fun _ => [], games := [], crashLog := [] }).map
      (fun s2 => (s2.games, s2.ladder 0, s2.ladder 1)) =
      .ok ([(0, 1, 10, 9999, none)], [(0 : Int)], [(0 : Int)]) := rfl

/-- Counterexample to C10 as stated: `"ta wins by 3 points Tie Game"`
contains "wins by" and "points" and neither "Red" nor "Blue", yet
processing it clears the previously set winner and loser to `none`
instead of leaving them as they were. -/
theorem wins_by_no_color_counterexample :
    strContains (str "ta wins by 3 points Tie Game") winsByMark = true ∧
    strContains (str "ta wins by 3 points Tie Game") pointsMark = true ∧
    strContains (str "ta wins by 3 points Tie Game") redTok = false ∧
    strContains (str "ta wins by 3 points Tie Game") blueTok = false ∧
    parseLine 5 6 { score := 7, winner := some 5, loser := some 6, bug := false,
                    crashLog := [] } (str "ta wins by 3 points Tie Game") =
      .ok { score := 3, winner := none, loser := none, bug := false, crashLog := [] } := by
  decide

end PacmanContest
